import Mathlib

/-!
# gconfig: import / export / switch

A shallow embedding of `cmd/import.go`, `cmd/export.go`, `cmd/switch.go` and
`internal/fzf/command.go`.

* A Go `string` is a Lean `String`; a Go `error` is an `Option String` holding the message
  of a non-nil error (`none` is `nil`).
* The external `gcloud` process behind the `gcloud.Command` interface is a record of
  functions that receive the history of all calls made so far (with their results), so a
  store may answer differently each time it is called.  Every function of the embedding
  threads that history: it takes the history before it runs and returns the history after.
* A Go `map[string]any` is the list of its entries in the order in which `range` visits
  them; every statement below is proved for every such order.
-/

namespace GConfig

/-! ## Strings (package `strings`, `fmt`, `unicode`) -/

/-- Go `strings.HasPrefix(s, pre)`. -/
def hasPrefixOf (s pre : String) : Bool :=
  pre.data.isPrefixOf s.data

/-- Go `strings.TrimPrefix(s, pre)`: `s` without the leading `pre`, or `s` itself. -/
def trimPrefixOf (s pre : String) : String :=
  if hasPrefixOf s pre then String.mk (s.data.drop pre.data.length) else s

/-- Go `strings.Join(elems, sep)`. -/
def join : List String → String → String
  | [], _ => ""
  | [a], _ => a
  | a :: b :: rest, sep => a ++ sep ++ join (b :: rest) sep

/-- Go `strings.Split(s, "\n")` on the characters of `s`: never empty, one more piece than
there are newlines. -/
def splitNewline : List Char → List (List Char)
  | [] => [[]]
  | c :: cs =>
    if c = '\n' then [] :: splitNewline cs
    else
      match splitNewline cs with
      | [] => [[c]]
      | l :: ls => (c :: l) :: ls

/-- Go `unicode.IsSpace`: the Latin-1 cases and the `White_Space` table. -/
def isSpace (c : Char) : Bool :=
  let n := c.toNat
  (9 ≤ n && n ≤ 13) || n = 32 || n = 133 || n = 160 || n = 5760 ||
    (8192 ≤ n && n ≤ 8202) || n = 8232 || n = 8233 || n = 8239 || n = 8287 || n = 12288

/-- The scan of Go `strings.Fields`: `cur` is the field being read, empty between fields. -/
def fieldsFrom : List Char → List Char → List (List Char)
  | cur, [] => if cur = [] then [] else [cur]
  | cur, c :: cs =>
    if isSpace c then
      if cur = [] then fieldsFrom [] cs else cur :: fieldsFrom [] cs
    else fieldsFrom (cur ++ [c]) cs

/-- Go `strings.Fields(s)`: the maximal runs of non-space characters. -/
def fields (s : String) : List String :=
  (fieldsFrom [] s.data).map String.mk

/-- Go `strings.TrimSpace(s)`. -/
def trimSpace (s : String) : String :=
  String.mk ((s.data.dropWhile isSpace).reverse.dropWhile isSpace).reverse

/-! ## Data model (`internal/gcloud/command.go`) -/

/-- The four dynamic types of the scalar case of the type switch in
`applyPropertiesRecursive`: `string`, `int`, `bool`, `float64` (the latter by its bits). -/
inductive Scalar where
  | str (s : String)
  | int (i : Int)
  | bool (b : Bool)
  | float64 (bits : Nat)
deriving DecidableEq, Repr

/-- A Go `any` as the type switch of `applyPropertiesRecursive` sees it: a
`map[string]interface{}`, one of the four scalars, or a value of any other dynamic type
(`nil`, a slice, ...). -/
inductive Value where
  | scalar (v : Scalar)
  | map (entries : List (String × Value))
  | other

/-- Go `gcloud.Configuration`. -/
structure Configuration where
  Name : String
  IsActive : Bool
  Properties : List (String × Value)

/-- One call on the `gcloud.Command` interface with its arguments and what it returned. -/
inductive Event where
  | getTable (out : String) (err : Option String)
  | describe (name out : String) (err : Option String)
  | activate (name : String) (err : Option String)
  | create (name : String) (err : Option String)
  | setValue (configuration path value : String) (err : Option String)
deriving DecidableEq, Repr

/-- Go interface `gcloud.Command` (the methods used by import, export and switch). Each
method receives the history of the calls made before it. -/
structure Command where
  GetConfigurationsTable : List Event → String × Option String
  DescribeConfiguration : List Event → String → String × Option String
  ActivateConfiguration : List Event → String → Option String
  CreateConfiguration : List Event → String → Option String
  SetConfigValue : List Event → String → String → String → Option String

/-- Go `fmt.Sprintf("%v", v)` for the four scalar kinds; `formatFloat` is the rendering of a
`float64` by package `fmt`. -/
def sprintV (formatFloat : Nat → String) : Scalar → String
  | .str s => s
  | .int i => toString i
  | .bool b => if b then "true" else "false"
  | .float64 bits => formatFloat bits

/-! ## `cmd/import.go` -/

mutual
/-- Go `applyPropertiesRecursive` (import.go 123-147). In the scalar case `v != nil` always
holds, a value of one of the four types being a non-nil interface value. -/
def applyPropertiesRecursive (formatFloat : Nat → String) (gcloudCmd : Command)
    (configName : String) : String → Value → List Event → Option String × List Event
  | path, .map v, h => rangeProperties formatFloat gcloudCmd configName path v h
  | path, .scalar v, h =>
    if path ≠ "" then
      let path1 := trimPrefixOf path "core/"
      let valueStr := sprintV formatFloat v
      let err := gcloudCmd.SetConfigValue h configName path1 valueStr
      let h1 := h ++ [Event.setValue configName path1 valueStr err]
      match err with
      | some e => (some ("failed to set " ++ path1 ++ ": " ++ e), h1)
      | none => (none, h1)
    else (none, h)
  | _, .other, h => (none, h)
/-- The `for key, subValue := range v` loop of `applyPropertiesRecursive` (import.go
126-135) over the entries still to be visited. -/
def rangeProperties (formatFloat : Nat → String) (gcloudCmd : Command)
    (configName : String) : String → List (String × Value) → List Event →
    Option String × List Event
  | _, [], h => (none, h)
  | path, (key, subValue) :: rest, h =>
    let newPath := if path ≠ "" then path ++ "/" ++ key else key
    match applyPropertiesRecursive formatFloat gcloudCmd configName newPath subValue h with
    | (some err, h1) => (some err, h1)
    | (none, h1) => rangeProperties formatFloat gcloudCmd configName path rest h1
end

/-- Go `applyProperties` (import.go 118-120). -/
def applyProperties (formatFloat : Nat → String) (gcloudCmd : Command) (configName : String)
    (properties : List (String × Value)) (h : List Event) : Option String × List Event :=
  applyPropertiesRecursive formatFloat gcloudCmd configName "" (Value.map properties) h

/-- Go `importConfiguration` (import.go 95-115). -/
def importConfiguration (formatFloat : Nat → String) (gcloudCmd : Command)
    (config : Configuration) (h : List Event) : Option String × List Event :=
  let existingConfig := (gcloudCmd.DescribeConfiguration h config.Name).1
  let err := (gcloudCmd.DescribeConfiguration h config.Name).2
  let h1 := h ++ [Event.describe config.Name existingConfig err]
  if existingConfig ≠ "" ∧ err = none then
    let err := gcloudCmd.ActivateConfiguration h1 config.Name
    let h2 := h1 ++ [Event.activate config.Name err]
    match err with
    | some e => (some ("failed to activate configuration: " ++ e), h2)
    | none =>
      match applyProperties formatFloat gcloudCmd config.Name config.Properties h2 with
      | (some e, h3) => (some ("failed to apply properties: " ++ e), h3)
      | (none, h3) => (none, h3)
  else
    let err := gcloudCmd.CreateConfiguration h1 config.Name
    let h2 := h1 ++ [Event.create config.Name err]
    match err with
    | some e => (some ("failed to create configuration: " ++ e), h2)
    | none =>
      match applyProperties formatFloat gcloudCmd config.Name config.Properties h2 with
      | (some e, h3) => (some ("failed to apply properties: " ++ e), h3)
      | (none, h3) => (none, h3)

/-- The decode loop of `runImport` (import.go 63-77). The argument lists what successive
`dec.Decode` calls return before `io.EOF`: a decoded record or a decoding error; `configs`
is the slice built so far. -/
def decodeConfigs : List (Except String Configuration) → List Configuration →
    Except String (List Configuration)
  | [], configs => .ok configs
  | .error e :: _, _ => .error ("failed to decode YAML: " ++ e)
  | .ok config :: rest, configs =>
    if config.Name = "" then decodeConfigs rest configs
    else decodeConfigs rest (configs ++ [config])

/-- The reconciliation loop of `runImport` (import.go 84-89). -/
def importConfigurations (formatFloat : Nat → String) (gcloudCmd : Command) :
    List Configuration → List Event → Option String × List Event
  | [], h => (none, h)
  | config :: rest, h =>
    match importConfiguration formatFloat gcloudCmd config h with
    | (some err, h1) =>
      (some ("failed to import configuration '" ++ config.Name ++ "': " ++ err), h1)
    | (none, h1) => importConfigurations formatFloat gcloudCmd rest h1

/-- What `runImport` reads from outside the program: `os.ReadFile`, `io.ReadAll(os.Stdin)`
and the YAML decoder of `github.com/goccy/go-yaml` run over the bytes read. -/
structure ImportSource where
  ReadFile : String → Except String String
  Stdin : Except String String
  Decode : String → List (Except String Configuration)

/-- The reading of the input in `runImport` (import.go 45-61): the file named by the first
argument, or standard input. -/
def readInput (src : ImportSource) (args : List String) : Except String String :=
  match args with
  | a :: _ =>
    match src.ReadFile a with
    | .error e => .error ("failed to read file: " ++ e)
    | .ok d => .ok d
  | [] =>
    match src.Stdin with
    | .error e => .error ("failed to read from stdin: " ++ e)
    | .ok d => .ok d

/-- Go `runImport` (import.go 44-92). -/
def runImport (formatFloat : Nat → String) (src : ImportSource) (gcloudCmd : Command)
    (args : List String) (h : List Event) : Option String × List Event :=
  match readInput src args with
  | .error e => (some e, h)
  | .ok d =>
    match decodeConfigs (src.Decode d) [] with
    | .error e => (some e, h)
    | .ok configs => importConfigurations formatFloat gcloudCmd configs h

/-! ## `cmd/export.go` -/

/-- The loop of `exportConfigurations` (export.go 62-72) from index `i` on; `out` is the
list of lines written to standard output so far, one per `fmt.Println`. -/
def exportLoop (gcloudCmd : Command) : Nat → List String → List Event → List String →
    Option String × List Event × List String
  | _, [], h, out => (none, h, out)
  | i, configName :: rest, h, out =>
    let out1 := if i > 0 then out ++ ["---"] else out
    let output := (gcloudCmd.DescribeConfiguration h configName).1
    let err := (gcloudCmd.DescribeConfiguration h configName).2
    let h1 := h ++ [Event.describe configName output err]
    match err with
    | some e =>
      (some ("failed to export configuration '" ++ configName ++ "': " ++ e), h1, out1)
    | none => exportLoop gcloudCmd (i + 1) rest h1 (out1 ++ [output])

/-- The lines written by the iterations with index `i > 0`: every record right after a
boundary line. -/
def withBoundaries : List String → List String
  | [] => []
  | r :: rest => "---" :: r :: withBoundaries rest

/-- Go `exportConfigurations` (export.go 61-75): the error returned, the history and the
lines on standard output. -/
def exportConfigurations (gcloudCmd : Command) (configNames : List String) (h : List Event)
    (out : List String) : Option String × List Event × List String :=
  exportLoop gcloudCmd 0 configNames h out

/-! ## `internal/fzf/command.go` -/

namespace fzf

/-- The error of `exec.Cmd.Output`: an `*exec.ExitError` with its exit code, or another
error. -/
inductive ExecError where
  | exit (code : Int) (msg : String)
  | other (msg : String)
deriving DecidableEq, Repr

/-- Go `err.Error()`. -/
def ExecError.Error : ExecError → String
  | .exit _ msg => msg
  | .other msg => msg

/-- Go `fzf.Options`. -/
structure Options where
  Query : String
  MultiSelect : Bool
  Args : List String

/-- The `fzf` binary as the program meets it: whether `exec.LookPath("fzf")` finds it, and
what `exec.Command("fzf", args...).Output()` returns for a given standard input. Both may
depend on what has happened so far. -/
structure Process where
  LookPath : List Event → Bool
  Output : List Event → List String → String → String × Option ExecError

/-- Go `fzf.IsInstalled`. -/
def IsInstalled (p : Process) (h : List Event) : Bool :=
  p.LookPath h

/-- Go `(*fzf.Command).Run` (command.go 33-66); `options = none` is the nil pointer. -/
def Run (p : Process) (h : List Event) (input : String) (options : Option Options) :
    String × Option String :=
  if !IsInstalled p h then ("", some "fzf is not installed. Please install fzf first")
  else
    let options := options.getD (Options.mk "" false [])
    let args : List String := []
    let args := if !options.MultiSelect then args ++ ["+m"] else args
    let args := if options.Query ≠ "" then args ++ ["-q", options.Query] else args
    let args := args ++ options.Args
    match p.Output h args input with
    | (_, some err) =>
      match err with
      | .exit 130 _ => ("", none)
      | _ => ("", some ("failed to execute fzf: " ++ err.Error))
    | (output, none) => (trimSpace output, none)

end fzf

/-! ## `cmd/switch.go` -/

/-- The body of the loop of `highlightActiveConfiguration` (switch.go 84-92) for one line;
`line[1:]` drops the one-byte `*`. -/
def highlightLine (line : String) : String :=
  if hasPrefixOf line "*" then
    "\x1b[01;31m" ++ "*" ++ "\x1b[0m" ++ String.mk (line.data.drop 1)
  else line

/-- Go `highlightActiveConfiguration` (switch.go 73-94). -/
def highlightActiveConfiguration (input : String) : String :=
  join (((splitNewline input.data).map String.mk).map highlightLine) "\n"

/-- Go `extractConfigurationName` (switch.go 96-102). -/
def extractConfigurationName (selected : String) : Except String String :=
  match fields selected with
  | _ :: name :: _ => .ok name
  | _ => .error "invalid selection result"

/-- Go `runSwitch` (switch.go 33-71). -/
def runSwitch (p : fzf.Process) (gcloudCmd : Command) (args : List String)
    (h : List Event) : Option String × List Event :=
  if !fzf.IsInstalled p h then (some "fzf is not installed", h)
  else
    let configTable := (gcloudCmd.GetConfigurationsTable h).1
    let err := (gcloudCmd.GetConfigurationsTable h).2
    let h1 := h ++ [Event.getTable configTable err]
    match err with
    | some e => (some ("failed to get configurations table: " ++ e), h1)
    | none =>
      let configTable := highlightActiveConfiguration configTable
      let query := match args with
        | a :: _ => a
        | [] => ""
      match fzf.Run p h1 configTable (some (fzf.Options.mk query false [])) with
      | (_, some e) => (some e, h1)
      | (selected, none) =>
        match extractConfigurationName selected with
        | .error e => (some e, h1)
        | .ok configName =>
          let err := gcloudCmd.ActivateConfiguration h1 configName
          let h2 := h1 ++ [Event.activate configName err]
          match err with
          | some e => (some ("failed to switch configuration: " ++ e), h2)
          | none => (none, h2)

/-! ## Vocabulary of the statements -/

mutual
/-- The leaf scalars of a value, each with the sequence of keys that leads to it, in the
order in which the entries are listed. -/
def leaves : Value → List (List String × Scalar)
  | .scalar s => [([], s)]
  | .map entries => leavesOfEntries entries
  | .other => []
/-- The leaf scalars below the entries of a mapping. -/
def leavesOfEntries : List (String × Value) → List (List String × Scalar)
  | [] => []
  | (key, v) :: rest =>
    (leaves v).map (fun l => (key :: l.1, l.2)) ++ leavesOfEntries rest
end

/-- The path that the recursion has built after descending from `path` through the keys
`ks` (import.go 127-130 at each level). -/
def pathOf : String → List String → String
  | path, [] => path
  | path, key :: ks => pathOf (if path ≠ "" then path ++ "/" ++ key else key) ks

/-- The `SetConfigValue` call, answered without error, that the scalar case (import.go
136-144) makes for a leaf reached from `path` through the keys `l.1`; none when the path
built is empty. -/
def callAt (formatFloat : Nat → String) (configName path : String)
    (l : List String × Scalar) : Option Event :=
  if pathOf path l.1 ≠ "" then
    some (Event.setValue configName (trimPrefixOf (pathOf path l.1) "core/")
      (sprintV formatFloat l.2) none)
  else none

/-- Some key on the way to the leaf is not the empty string. -/
def hasNamedKey (l : List String × Scalar) : Bool :=
  l.1.any (fun k => k ≠ "")

/-- The record has a non-empty name. -/
def Configuration.named (c : Configuration) : Bool :=
  c.Name ≠ ""

/-- The store never fails a `SetConfigValue` call. -/
def SetAlwaysSucceeds (gcloudCmd : Command) : Prop :=
  ∀ h configuration path value, gcloudCmd.SetConfigValue h configuration path value = none

/-- A `SetConfigValue` call. -/
def Event.isSet : Event → Bool
  | .setValue _ _ _ _ => true
  | _ => false

/-- A `SetConfigValue` call that returned an error. -/
def Event.isFailedSet : Event → Bool
  | .setValue _ _ _ (some _) => true
  | _ => false

/-- What a run of the property traversal started at history `h` can end in: some
`SetConfigValue` calls for `configName` that all succeeded and no error, or such calls
followed by one that failed, with the error that names its path. -/
def SetOutcome (configName : String) (h : List Event) (r : Option String × List Event) :
    Prop :=
  ∃ evs : List Event,
    (∀ ev ∈ evs, ∃ p v, ev = Event.setValue configName p v none) ∧
    ((r = (none, h ++ evs)) ∨
      (∃ p v e, r = (some ("failed to set " ++ p ++ ": " ++ e),
        h ++ evs ++ [Event.setValue configName p v (some e)])))

/-- The path argument of a `SetConfigValue` call. -/
def Event.setPath : Event → Option String
  | .setValue _ path _ _ => some path
  | _ => none

/-! ## Stores used in the examples -/

/-- A store in which every call succeeds; `describe` answers `desc` for every name. -/
def okStore (desc : String) : Command where
  GetConfigurationsTable := fun _ => ("", none)
  DescribeConfiguration := fun _ _ => (desc, none)
  ActivateConfiguration := fun _ _ => none
  CreateConfiguration := fun _ _ => none
  SetConfigValue := fun _ _ _ _ => none

/-- A store that knows no configuration (`describe` fails) and fails the `SetConfigValue`
call made after exactly `n` earlier `SetConfigValue` calls. -/
def failNthSetStore (n : Nat) : Command where
  GetConfigurationsTable := fun _ => ("", none)
  DescribeConfiguration := fun _ _ => ("", some "not found")
  ActivateConfiguration := fun _ _ => none
  CreateConfiguration := fun _ _ => none
  SetConfigValue := fun h _ _ _ =>
    if (h.filter Event.isSet).length = n then some "exit status 1" else none

/-- A store that knows no configuration and cannot create the one named `bad`. -/
def failCreateStore (bad : String) : Command where
  GetConfigurationsTable := fun _ => ("", none)
  DescribeConfiguration := fun _ _ => ("", some "not found")
  ActivateConfiguration := fun _ _ => none
  CreateConfiguration := fun _ name => if name = bad then some "exit status 1" else none
  SetConfigValue := fun _ _ _ _ => none

/-- Standard input holding `data`, which the decoder splits into the given records. -/
def stdinSource (data : String) (records : List (Except String Configuration)) :
    ImportSource where
  ReadFile := fun _ => .error "no such file"
  Stdin := .ok data
  Decode := fun d => if d = data then records else []

/-- A store in which every call succeeds and whose table listing is `table`. -/
def tableStore (table : String) : Command where
  GetConfigurationsTable := fun _ => (table, none)
  DescribeConfiguration := fun _ _ => ("", none)
  ActivateConfiguration := fun _ _ => none
  CreateConfiguration := fun _ _ => none
  SetConfigValue := fun _ _ _ _ => none

/-- An installed `fzf` in which the user cancels the selection: it exits with status 130
and no output. -/
def cancelledFzf : fzf.Process where
  LookPath := fun _ => true
  Output := fun _ _ _ => ("", some (fzf.ExecError.exit 130 "exit status 130"))

/-- A configuration with the three properties `a: 1`, `b: 2`, `c: 3`. -/
def threeProperties (name : String) : Configuration where
  Name := name
  IsActive := false
  Properties := [("a", Value.scalar (Scalar.str "1")), ("b", Value.scalar (Scalar.str "2")),
    ("c", Value.scalar (Scalar.str "3"))]

/-- A configuration without properties. -/
def bare (name : String) : Configuration where
  Name := name
  IsActive := false
  Properties := []

/-- The rendering of a `float64` used in the examples, none of which holds a float. -/
def noFloat : Nat → String := fun _ => ""


/-! ## Strings -/

theorem append_ne_empty_left (a b : String) (h : a ≠ "") : a ++ b ≠ "" := by
  intro hab
  apply h
  have h1 : (a ++ b).data = "".data := by rw [hab]
  rw [String.data_append] at h1
  have h2 : a.data = [] := by
    cases ha : a.data with
    | nil => rfl
    | cons c cs => rw [ha] at h1; simp at h1
  exact String.ext (by simpa using h2)

theorem pathOf_of_ne (ks : List String) : ∀ path : String, path ≠ "" →
    pathOf path ks = join (path :: ks) "/" := by
  induction ks with
  | nil => intro path _; rfl
  | cons k rest ih =>
    intro path hp
    have hne : path ++ "/" ++ k ≠ "" :=
      append_ne_empty_left _ _ (append_ne_empty_left _ _ hp)
    rw [pathOf, if_pos hp, ih _ hne]
    cases rest with
    | nil => rfl
    | cons b r => simp [join, String.append_assoc]

theorem pathOf_ne_empty (ks : List String) : ∀ path : String, path ≠ "" →
    pathOf path ks ≠ "" := by
  induction ks with
  | nil => intro path hp; exact hp
  | cons k rest ih =>
    intro path hp
    rw [pathOf, if_pos hp]
    exact ih _ (append_ne_empty_left _ _ (append_ne_empty_left _ _ hp))

theorem pathOf_empty_iff (ks : List String) :
    pathOf "" ks = "" ↔ ∀ k ∈ ks, k = "" := by
  induction ks with
  | nil => simp [pathOf]
  | cons k rest ih =>
    rw [pathOf]
    simp only [ne_eq, not_true_eq_false, if_false, List.mem_cons, forall_eq_or_imp]
    by_cases hk : k = ""
    · subst hk; simp [ih]
    · constructor
      · intro h; exact absurd h (pathOf_ne_empty rest k hk)
      · intro h; exact absurd h.1 hk

theorem trimPrefixOf_core (t : String) : trimPrefixOf ("core/" ++ t) "core/" = t := by
  have h : hasPrefixOf ("core/" ++ t) "core/" = true := by
    simp [hasPrefixOf, String.data_append, List.isPrefixOf]
  rw [trimPrefixOf, if_pos h]
  simp [String.data_append]


theorem hasPrefixOf_core_slash (k rest : String) (hk : k ≠ "") (hc : k ≠ "core")
    (hp : hasPrefixOf k "core/" = false) :
    hasPrefixOf (k ++ "/" ++ rest) "core/" = false := by
  obtain ⟨l⟩ := k
  have hl : l ≠ [] := fun h => hk (by rw [h])
  have hl4 : l ≠ ['c', 'o', 'r', 'e'] := fun h => hc (by rw [h])
  simp only [hasPrefixOf, String.data_append] at hp ⊢
  rcases l with _ | ⟨a, _ | ⟨b, _ | ⟨c, _ | ⟨d, _ | ⟨e, l⟩⟩⟩⟩⟩
  · exact absurd rfl hl
  · simp [List.isPrefixOf]
  · simp [List.isPrefixOf]
  · simp [List.isPrefixOf]
  · simp [List.isPrefixOf]
    intro h1 h2 h3 h4
    subst h1 h2 h3 h4
    exact absurd rfl hl4
  · simpa [List.isPrefixOf] using hp

theorem trimPrefixOf_join_of_not_core (k : String) (ks : List String) (hk : k ≠ "")
    (hc : k ≠ "core") (hp : hasPrefixOf k "core/" = false) :
    trimPrefixOf (join (k :: ks) "/") "core/" = join (k :: ks) "/" := by
  have h : hasPrefixOf (join (k :: ks) "/") "core/" = false := by
    cases ks with
    | nil => simpa [join] using hp
    | cons b r => simpa [join] using hasPrefixOf_core_slash k (join (b :: r) "/") hk hc hp
  rw [trimPrefixOf, h]
  rfl

/-! ## The traversal with a store that accepts every assignment -/

mutual
theorem applyPropertiesRecursive_ok (formatFloat : Nat → String) (gcloudCmd : Command)
    (configName : String) (hok : SetAlwaysSucceeds gcloudCmd) :
    ∀ (value : Value) (path : String) (h : List Event),
      applyPropertiesRecursive formatFloat gcloudCmd configName path value h =
        (none, h ++ (leaves value).filterMap (callAt formatFloat configName path))
  | .scalar v, path, h => by
    by_cases hp : path = ""
    · simp [applyPropertiesRecursive, leaves, callAt, pathOf, hp]
    · simp [applyPropertiesRecursive, leaves, callAt, pathOf, hp, hok _ _ _ _]
  | .other, path, h => by simp [applyPropertiesRecursive, leaves]
  | .map entries, path, h => by
    rw [applyPropertiesRecursive, leaves]
    exact rangeProperties_ok formatFloat gcloudCmd configName hok entries path h
theorem rangeProperties_ok (formatFloat : Nat → String) (gcloudCmd : Command)
    (configName : String) (hok : SetAlwaysSucceeds gcloudCmd) :
    ∀ (entries : List (String × Value)) (path : String) (h : List Event),
      rangeProperties formatFloat gcloudCmd configName path entries h =
        (none, h ++ (leavesOfEntries entries).filterMap (callAt formatFloat configName path))
  | [], path, h => by simp [rangeProperties, leavesOfEntries]
  | (key, v) :: rest, path, h => by
    rw [rangeProperties]
    rw [applyPropertiesRecursive_ok formatFloat gcloudCmd configName hok v _ h]
    simp only []
    rw [rangeProperties_ok formatFloat gcloudCmd configName hok rest path _]
    simp only [leavesOfEntries, List.filterMap_append, List.append_assoc, List.filterMap_map]
    rfl
end


theorem callAt_cons (formatFloat : Nat → String) (configName path key : String)
    (l : List String × Scalar) :
    callAt formatFloat configName path (key :: l.1, l.2) =
      callAt formatFloat configName (if path ≠ "" then path ++ "/" ++ key else key) l := by
  simp [callAt, pathOf]

theorem callAt_core (formatFloat : Nat → String) (configName k2 : String)
    (ks : List String) (s : Scalar) :
    callAt formatFloat configName "" ("core" :: k2 :: ks, s) =
      some (Event.setValue configName (join (k2 :: ks) "/") (sprintV formatFloat s) none) := by
  have hp : pathOf "" ("core" :: k2 :: ks) = "core/" ++ join (k2 :: ks) "/" := by
    rw [pathOf]
    simp only [ne_eq, not_true_eq_false, if_false]
    rw [pathOf_of_ne _ _ (by decide)]
    simp only [join, String.append_assoc]
    rfl
  have hne : "core/" ++ join (k2 :: ks) "/" ≠ "" := append_ne_empty_left _ _ (by decide)
  simp [callAt, hp, hne, trimPrefixOf_core]

theorem callAt_not_core (formatFloat : Nat → String) (configName k1 : String)
    (ks : List String) (s : Scalar) (hk : k1 ≠ "") (hc : k1 ≠ "core")
    (hp : hasPrefixOf k1 "core/" = false) :
    callAt formatFloat configName "" (k1 :: ks, s) =
      some (Event.setValue configName (join (k1 :: ks) "/") (sprintV formatFloat s) none) := by
  have hpath : pathOf "" (k1 :: ks) = join (k1 :: ks) "/" := by
    rw [pathOf]
    simp only [ne_eq, not_true_eq_false, if_false]
    exact pathOf_of_ne _ _ hk
  have hne : join (k1 :: ks) "/" ≠ "" := by
    rw [← hpath, pathOf]
    simp only [ne_eq, not_true_eq_false, if_false]
    exact pathOf_ne_empty _ _ hk
  simp [callAt, hpath, hne, trimPrefixOf_join_of_not_core k1 ks hk hc hp]

theorem hasNamedKey_iff (l : List String × Scalar) :
    hasNamedKey l = true ↔ pathOf "" l.1 ≠ "" := by
  rw [Ne, pathOf_empty_iff]
  simp [hasNamedKey]

theorem filterMap_callAt (formatFloat : Nat → String) (configName : String)
    (ls : List (List String × Scalar)) :
    ls.filterMap (callAt formatFloat configName "") =
      (ls.filter hasNamedKey).map (fun l =>
        Event.setValue configName (trimPrefixOf (pathOf "" l.1) "core/")
          (sprintV formatFloat l.2) none) := by
  induction ls with
  | nil => rfl
  | cons l rest ih =>
    by_cases hl : hasNamedKey l = true
    · have h1 := (hasNamedKey_iff l).1 hl
      rw [List.filter_cons_of_pos hl, List.map_cons, ← ih, List.filterMap_cons]
      simp [callAt, h1]
    · have h1 : pathOf "" l.1 = "" := by
        by_contra h
        exact hl ((hasNamedKey_iff l).2 h)
      rw [List.filter_cons_of_neg hl, ← ih, List.filterMap_cons]
      simp [callAt, h1]


theorem applyProperties_ok (formatFloat : Nat → String) (gcloudCmd : Command)
    (configName : String) (hok : SetAlwaysSucceeds gcloudCmd)
    (properties : List (String × Value)) (h : List Event) :
    applyProperties formatFloat gcloudCmd configName properties h =
      (none, h ++ (leavesOfEntries properties).filterMap (callAt formatFloat configName "")) := by
  rw [applyProperties, applyPropertiesRecursive_ok formatFloat gcloudCmd configName hok, leaves]

/-! ## C1: flatten completeness -/

/-- C1, as stated, fails: the mapping with the single entry `"": "x"` has one leaf scalar,
yet with a store that accepts every assignment `applyProperties` makes no call at all,
the path built for that leaf being empty. -/
theorem flatten_completeness_fails_on_empty_key :
    SetAlwaysSucceeds (okStore "") ∧
    (leavesOfEntries [("", Value.scalar (Scalar.str "x"))]).length = 1 ∧
    applyProperties noFloat (okStore "") "dev" [("", Value.scalar (Scalar.str "x"))] [] =
      (none, []) :=
  ⟨fun _ _ _ _ => rfl, rfl, rfl⟩

/-- C1, amended: with a store whose `SetConfigValue` always succeeds, `applyProperties`
returns no error and the calls it makes are, in traversal order, exactly one
`SetConfigValue` call for each leaf scalar that has a non-empty key on its way (with the
path built for that leaf, `core/` trimmed, and the leaf rendered by `%v`), and nothing else:
the number of set calls is the number of those leaves, and no call is made for a nested
mapping. -/
theorem applyProperties_one_call_per_named_leaf (formatFloat : Nat → String)
    (gcloudCmd : Command) (configName : String) (properties : List (String × Value))
    (h : List Event) (hok : SetAlwaysSucceeds gcloudCmd) :
    (applyProperties formatFloat gcloudCmd configName properties h).1 = none ∧
    (applyProperties formatFloat gcloudCmd configName properties h).2 =
      h ++ ((leavesOfEntries properties).filter hasNamedKey).map (fun l =>
        Event.setValue configName (trimPrefixOf (pathOf "" l.1) "core/")
          (sprintV formatFloat l.2) none) ∧
    (((applyProperties formatFloat gcloudCmd configName properties h).2.drop h.length).filter
        Event.isSet).length = ((leavesOfEntries properties).filter hasNamedKey).length := by
  rw [applyProperties_ok formatFloat gcloudCmd configName hok, filterMap_callAt]
  refine ⟨rfl, rfl, ?_⟩
  simp only [List.drop_left]
  rw [List.filter_eq_self.2]
  · simp
  · intro ev hev
    obtain ⟨l, _, rfl⟩ := List.mem_map.1 hev
    rfl

/-- The amended C1 at a store that accepts everything and the mapping
`{core: {account: me}, compute: {zone: 3}, "": off}`. -/
theorem applyProperties_one_call_per_named_leaf_witness :
    SetAlwaysSucceeds (okStore "") ∧
    (applyProperties noFloat (okStore "") "dev"
      [("core", Value.map [("account", Value.scalar (Scalar.str "me"))]),
       ("compute", Value.map [("zone", Value.scalar (Scalar.int 3))]),
       ("", Value.scalar (Scalar.bool false))] []).2 =
      [Event.setValue "dev" "account" "me" none, Event.setValue "dev" "compute/zone" "3" none] :=
  ⟨fun _ _ _ _ => rfl,
   (applyProperties_one_call_per_named_leaf noFloat (okStore "") "dev"
      [("core", Value.map [("account", Value.scalar (Scalar.str "me"))]),
       ("compute", Value.map [("zone", Value.scalar (Scalar.int 3))]),
       ("", Value.scalar (Scalar.bool false))] [] (fun _ _ _ _ => rfl)).2.1.trans (by decide)⟩


theorem applyProperties_ok_at (formatFloat : Nat → String) (gcloudCmd : Command)
    (configName : String) (hok : SetAlwaysSucceeds gcloudCmd)
    (properties : List (String × Value)) (h : List Event)
    (before after : List (List String × Scalar)) (l : List String × Scalar) (ev : Event)
    (hl : leavesOfEntries properties = before ++ l :: after)
    (hev : callAt formatFloat configName "" l = some ev) :
    applyProperties formatFloat gcloudCmd configName properties h =
      (none, h ++ before.filterMap (callAt formatFloat configName "") ++
        ev :: after.filterMap (callAt formatFloat configName "")) := by
  rw [applyProperties_ok formatFloat gcloudCmd configName hok, hl, List.filterMap_append,
    List.filterMap_cons, hev, List.append_assoc]

theorem core_slash (k : String) : "core" ++ "/" ++ k = "core/" ++ k := by
  have h : "core" ++ "/" = "core/" := by decide
  rw [h]

/-- The calls made for `{core: {k1: v1, k2: v2}}`, the entries visited in this order, with
an arbitrary store. -/
theorem applyProperties_core_pair (formatFloat : Nat → String) (gcloudCmd : Command)
    (configName k1 k2 v1 v2 : String) (h : List Event) :
    applyProperties formatFloat gcloudCmd configName
        [("core", Value.map [(k1, Value.scalar (Scalar.str v1)),
          (k2, Value.scalar (Scalar.str v2))])] h =
      match gcloudCmd.SetConfigValue h configName k1 v1 with
      | some e =>
        (some ("failed to set " ++ k1 ++ ": " ++ e),
          h ++ [Event.setValue configName k1 v1 (some e)])
      | none =>
        match gcloudCmd.SetConfigValue (h ++ [Event.setValue configName k1 v1 none])
            configName k2 v2 with
        | some e =>
          (some ("failed to set " ++ k2 ++ ": " ++ e),
            h ++ [Event.setValue configName k1 v1 none, Event.setValue configName k2 v2 (some e)])
        | none =>
          (none,
            h ++ [Event.setValue configName k1 v1 none, Event.setValue configName k2 v2 none]) := by
  have n1 : ("core" : String) ≠ "" := by decide
  have n2 : ∀ k : String, "core/" ++ k ≠ "" := fun k => append_ne_empty_left _ _ (by decide)
  simp only [applyProperties, applyPropertiesRecursive, rangeProperties, ne_eq,
    not_true_eq_false, if_false, n1, not_false_eq_true, if_true, core_slash, n2,
    trimPrefixOf_core, sprintV]
  cases gcloudCmd.SetConfigValue h configName k1 v1 with
  | some e => rfl
  | none =>
    dsimp only
    cases gcloudCmd.SetConfigValue (h ++ [Event.setValue configName k1 v1 none])
        configName k2 v2 with
    | some e => simp
    | none => simp

theorem applyProperties_core_pair_calls (formatFloat : Nat → String) (gcloudCmd : Command)
    (configName k1 k2 v1 v2 : String) (h : List Event) (ev : Event)
    (hev : ev ∈ (applyProperties formatFloat gcloudCmd configName
        [("core", Value.map [(k1, Value.scalar (Scalar.str v1)),
          (k2, Value.scalar (Scalar.str v2))])] h).2.drop h.length) :
    (∃ err, ev = Event.setValue configName k1 v1 err) ∨
      (∃ err, ev = Event.setValue configName k2 v2 err) := by
  rw [applyProperties_core_pair] at hev
  cases hs1 : gcloudCmd.SetConfigValue h configName k1 v1 with
  | some e =>
    rw [hs1] at hev
    simp only [List.drop_left, List.mem_singleton] at hev
    exact Or.inl ⟨_, hev⟩
  | none =>
    rw [hs1] at hev
    cases hs2 : gcloudCmd.SetConfigValue (h ++ [Event.setValue configName k1 v1 none])
        configName k2 v2 with
    | some e =>
      rw [hs2] at hev
      simp only [List.drop_left, List.mem_cons, List.mem_singleton, List.not_mem_nil,
        or_false] at hev
      rcases hev with h1 | h1
      · exact Or.inl ⟨_, h1⟩
      · exact Or.inr ⟨_, h1⟩
    | none =>
      rw [hs2] at hev
      simp only [List.drop_left, List.mem_cons, List.mem_singleton, List.not_mem_nil,
        or_false] at hev
      rcases hev with h1 | h1
      · exact Or.inl ⟨_, h1⟩
      · exact Or.inr ⟨_, h1⟩

/-! ## C2: core-prefix stripping -/

/-- C2: (a) whatever the store answers, the scalar case reached with the path built for the
keys `core, k2, ..., kn` calls `SetConfigValue` once, with the path `k2/.../kn`; (b) with a
store that accepts every assignment, the call made for a leaf at `core, k2, ..., kn` (after
the calls for the leaves before it and before those for the leaves after it) has the path
`k2/.../kn`, only the leading `core/` being removed; (c) for all strings `a` and `p`,
applying `{core: {account: a, project: p}}` with such a store makes exactly the calls
`(account, a)` and `(project, p)`, in the order in which the two entries are visited;
(d) whatever the store answers and whatever that order, every call made for that mapping
is one of these two, so none has the path `core/account` or `core/project`. -/
theorem core_prefix_stripped (formatFloat : Nat → String) (gcloudCmd : Command)
    (configName : String) :
    (∀ (k2 : String) (ks : List String) (s : Scalar) (h : List Event),
      (applyPropertiesRecursive formatFloat gcloudCmd configName
          (pathOf "" ("core" :: k2 :: ks)) (Value.scalar s) h).2 =
        h ++ [Event.setValue configName (join (k2 :: ks) "/") (sprintV formatFloat s)
          (gcloudCmd.SetConfigValue h configName (join (k2 :: ks) "/")
            (sprintV formatFloat s))]) ∧
    (SetAlwaysSucceeds gcloudCmd →
      ∀ (properties : List (String × Value)) (h : List Event)
        (before after : List (List String × Scalar)) (k2 : String) (ks : List String)
        (s : Scalar),
        leavesOfEntries properties = before ++ ("core" :: k2 :: ks, s) :: after →
        applyProperties formatFloat gcloudCmd configName properties h =
          (none, h ++ before.filterMap (callAt formatFloat configName "") ++
            Event.setValue configName (join (k2 :: ks) "/") (sprintV formatFloat s) none ::
              after.filterMap (callAt formatFloat configName ""))) ∧
    (SetAlwaysSucceeds gcloudCmd →
      ∀ (a p : String) (h : List Event),
        applyProperties formatFloat gcloudCmd configName
            [("core", Value.map [("account", Value.scalar (Scalar.str a)),
              ("project", Value.scalar (Scalar.str p))])] h =
          (none, h ++ [Event.setValue configName "account" a none,
            Event.setValue configName "project" p none]) ∧
        applyProperties formatFloat gcloudCmd configName
            [("core", Value.map [("project", Value.scalar (Scalar.str p)),
              ("account", Value.scalar (Scalar.str a))])] h =
          (none, h ++ [Event.setValue configName "project" p none,
            Event.setValue configName "account" a none])) ∧
    (∀ (a p : String) (h : List Event) (ev : Event),
      (ev ∈ (applyProperties formatFloat gcloudCmd configName
            [("core", Value.map [("account", Value.scalar (Scalar.str a)),
              ("project", Value.scalar (Scalar.str p))])] h).2.drop h.length ∨
        ev ∈ (applyProperties formatFloat gcloudCmd configName
            [("core", Value.map [("project", Value.scalar (Scalar.str p)),
              ("account", Value.scalar (Scalar.str a))])] h).2.drop h.length) →
        ((∃ err, ev = Event.setValue configName "account" a err) ∨
          (∃ err, ev = Event.setValue configName "project" p err)) ∧
        ev.setPath ≠ some "core/account" ∧ ev.setPath ≠ some "core/project") := by
  refine ⟨?_, ?_, ?_, ?_⟩
  · intro k2 ks s h
    have hp : pathOf "" ("core" :: k2 :: ks) = "core/" ++ join (k2 :: ks) "/" := by
      rw [pathOf]
      simp only [ne_eq, not_true_eq_false, if_false]
      rw [pathOf_of_ne _ _ (by decide)]
      simp only [join, String.append_assoc]
      rfl
    have hne : "core/" ++ join (k2 :: ks) "/" ≠ "" := append_ne_empty_left _ _ (by decide)
    rw [hp, applyPropertiesRecursive, if_pos hne, trimPrefixOf_core]
    dsimp only
    cases gcloudCmd.SetConfigValue h configName (join (k2 :: ks) "/") (sprintV formatFloat s)
      <;> rfl
  · intro hok properties h before after k2 ks s hl
    exact applyProperties_ok_at formatFloat gcloudCmd configName hok properties h before after
      _ _ hl (callAt_core formatFloat configName k2 ks s)
  · intro hok a p h
    constructor
    · rw [applyProperties_core_pair, hok, hok]
    · rw [applyProperties_core_pair, hok, hok]
  · intro a p h ev hev
    have q1 : ("account" : String) ≠ "core/account" := by decide
    have q2 : ("account" : String) ≠ "core/project" := by decide
    have q3 : ("project" : String) ≠ "core/account" := by decide
    have q4 : ("project" : String) ≠ "core/project" := by decide
    have hcall : (∃ err, ev = Event.setValue configName "account" a err) ∨
        (∃ err, ev = Event.setValue configName "project" p err) := by
      rcases hev with h1 | h1
      · exact applyProperties_core_pair_calls formatFloat gcloudCmd configName _ _ _ _ h ev h1
      · exact (applyProperties_core_pair_calls formatFloat gcloudCmd configName _ _ _ _ h ev
          h1).symm
    refine ⟨hcall, ?_⟩
    rcases hcall with ⟨err, rfl⟩ | ⟨err, rfl⟩
    · exact ⟨by simp [Event.setPath, q1], by simp [Event.setPath, q2]⟩
    · exact ⟨by simp [Event.setPath, q3], by simp [Event.setPath, q4]⟩

/-- C2 at a store that accepts everything: the mapping `{core: {account: me, project:
demo}}` gives the calls `(account, me)` and `(project, demo)`; the leaf at `core, account`
is the first of its leaves; and the call `(account, me)` is among the calls made. -/
theorem core_prefix_stripped_witness :
    SetAlwaysSucceeds (okStore "") ∧
    applyProperties noFloat (okStore "") "dev"
      [("core", Value.map [("account", Value.scalar (Scalar.str "me")),
        ("project", Value.scalar (Scalar.str "demo"))])] [] =
      (none, [Event.setValue "dev" "account" "me" none,
        Event.setValue "dev" "project" "demo" none]) ∧
    applyProperties noFloat (okStore "") "dev"
      [("core", Value.map [("account", Value.scalar (Scalar.str "me")),
        ("project", Value.scalar (Scalar.str "demo"))])] [] =
      (none, [] ++ List.filterMap (callAt noFloat "dev" "") [] ++
        Event.setValue "dev" (join ["account"] "/") (sprintV noFloat (Scalar.str "me")) none ::
          List.filterMap (callAt noFloat "dev" "") [(["core", "project"], Scalar.str "demo")]) ∧
    (Event.setValue "dev" "account" "me" none).setPath ≠ some "core/account" :=
  ⟨fun _ _ _ _ => rfl,
   ((core_prefix_stripped noFloat (okStore "") "dev").2.2.1 (fun _ _ _ _ => rfl) "me" "demo"
     []).1,
   (core_prefix_stripped noFloat (okStore "") "dev").2.1 (fun _ _ _ _ => rfl)
     [("core", Value.map [("account", Value.scalar (Scalar.str "me")),
        ("project", Value.scalar (Scalar.str "demo"))])] [] []
     [(["core", "project"], Scalar.str "demo")] "account" [] (Scalar.str "me") rfl,
   ((core_prefix_stripped noFloat (okStore "") "dev").2.2.2 "me" "demo" []
     (Event.setValue "dev" "account" "me" none) (Or.inl (by decide))).2.1⟩

/-! ## C3: paths outside `core` -/

/-- C3, as stated, fails: the top-level key `core/x` is not `core`, yet the call made for
the leaf `{core/x: v}` has the path `x`, not the full path `core/x`; and below an empty
top-level key the path built for `{"": {a: v}}` is `a`, not `/a`. -/
theorem path_not_preserved_for_core_slash_key :
    SetAlwaysSucceeds (okStore "") ∧
    ("core/x" : String) ≠ "core" ∧
    join ["core/x"] "/" = "core/x" ∧
    applyProperties noFloat (okStore "") "dev" [("core/x", Value.scalar (Scalar.str "v"))] [] =
      (none, [Event.setValue "dev" "x" "v" none]) ∧
    join ["", "a"] "/" = "/a" ∧
    applyProperties noFloat (okStore "") "dev"
      [("", Value.map [("a", Value.scalar (Scalar.str "v"))])] [] =
      (none, [Event.setValue "dev" "a" "v" none]) :=
  ⟨fun _ _ _ _ => rfl, by decide, by decide, by decide, by decide, by decide⟩

/-- C3, amended: for a top-level key `k1` that is not empty, is not `core` and does not
begin with `core/`: (a) whatever the store answers, the scalar case reached with the path
built for the keys `k1, ..., kn` calls `SetConfigValue` once, with the full path
`k1/k2/.../kn`; (b) with a store that accepts every assignment, the call made for a leaf at
`k1, ..., kn` has that full path, nothing stripped. And (c), whatever the store answers,
applying `{compute: {region: "us-east1"}}` makes exactly the one call
`(compute/region, us-east1)`. -/
theorem non_core_path_preserved (formatFloat : Nat → String) (gcloudCmd : Command)
    (configName : String) :
    (∀ (k1 : String) (ks : List String) (s : Scalar) (h : List Event),
      k1 ≠ "" → k1 ≠ "core" → hasPrefixOf k1 "core/" = false →
      (applyPropertiesRecursive formatFloat gcloudCmd configName
          (pathOf "" (k1 :: ks)) (Value.scalar s) h).2 =
        h ++ [Event.setValue configName (join (k1 :: ks) "/") (sprintV formatFloat s)
          (gcloudCmd.SetConfigValue h configName (join (k1 :: ks) "/")
            (sprintV formatFloat s))]) ∧
    (SetAlwaysSucceeds gcloudCmd →
      ∀ (properties : List (String × Value)) (h : List Event)
        (before after : List (List String × Scalar)) (k1 : String) (ks : List String)
        (s : Scalar),
        k1 ≠ "" → k1 ≠ "core" → hasPrefixOf k1 "core/" = false →
        leavesOfEntries properties = before ++ (k1 :: ks, s) :: after →
        applyProperties formatFloat gcloudCmd configName properties h =
          (none, h ++ before.filterMap (callAt formatFloat configName "") ++
            Event.setValue configName (join (k1 :: ks) "/") (sprintV formatFloat s) none ::
              after.filterMap (callAt formatFloat configName ""))) ∧
    (∀ h : List Event,
      (applyProperties formatFloat gcloudCmd configName
          [("compute", Value.map [("region", Value.scalar (Scalar.str "us-east1"))])] h).2 =
        h ++ [Event.setValue configName "compute/region" "us-east1"
          (gcloudCmd.SetConfigValue h configName "compute/region" "us-east1")]) := by
  have key : ∀ (k1 : String) (ks : List String) (s : Scalar) (h : List Event),
      k1 ≠ "" → k1 ≠ "core" → hasPrefixOf k1 "core/" = false →
      (applyPropertiesRecursive formatFloat gcloudCmd configName
          (pathOf "" (k1 :: ks)) (Value.scalar s) h).2 =
        h ++ [Event.setValue configName (join (k1 :: ks) "/") (sprintV formatFloat s)
          (gcloudCmd.SetConfigValue h configName (join (k1 :: ks) "/")
            (sprintV formatFloat s))] := by
    intro k1 ks s h hk hc hp
    have hpath : pathOf "" (k1 :: ks) = join (k1 :: ks) "/" := by
      rw [pathOf]
      simp only [ne_eq, not_true_eq_false, if_false]
      exact pathOf_of_ne _ _ hk
    have hne : join (k1 :: ks) "/" ≠ "" := by
      rw [← hpath, pathOf]
      simp only [ne_eq, not_true_eq_false, if_false]
      exact pathOf_ne_empty _ _ hk
    rw [hpath, applyPropertiesRecursive, if_pos hne,
      trimPrefixOf_join_of_not_core k1 ks hk hc hp]
    dsimp only
    cases gcloudCmd.SetConfigValue h configName (join (k1 :: ks) "/") (sprintV formatFloat s)
      <;> rfl
  refine ⟨key, ?_, ?_⟩
  · intro hok properties h before after k1 ks s hk hc hp hl
    exact applyProperties_ok_at formatFloat gcloudCmd configName hok properties h before after
      _ _ hl (callAt_not_core formatFloat configName k1 ks s hk hc hp)
  · intro h
    have h1 := key "compute" ["region"] (Scalar.str "us-east1") h (by decide) (by decide)
      (by decide)
    have e : pathOf "" ["compute", "region"] = "compute/region" := by decide
    have e2 : join ["compute", "region"] "/" = "compute/region" := by decide
    rw [e, e2] at h1
    simp only [sprintV] at h1
    have n1 : ("compute" : String) ≠ "" := by decide
    have e3 : "compute" ++ "/" ++ "region" = "compute/region" := by decide
    simp only [applyProperties, applyPropertiesRecursive, rangeProperties, ne_eq,
      not_true_eq_false, if_false, n1, not_false_eq_true, if_true, e3] at h1 ⊢
    cases hs : gcloudCmd.SetConfigValue h configName "compute/region" "us-east1" <;>
      simp [hs, sprintV, trimPrefixOf, hasPrefixOf, List.isPrefixOf]

/-- The amended C3 at a store that accepts everything and the mapping
`{compute: {region: us-east1}}`. -/
theorem non_core_path_preserved_witness :
    SetAlwaysSucceeds (okStore "") ∧
    ("compute" : String) ≠ "" ∧ ("compute" : String) ≠ "core" ∧
    hasPrefixOf "compute" "core/" = false ∧
    applyProperties noFloat (okStore "") "dev"
      [("compute", Value.map [("region", Value.scalar (Scalar.str "us-east1"))])] [] =
      (none, [] ++ List.filterMap (callAt noFloat "dev" "") [] ++
        Event.setValue "dev" (join ["compute", "region"] "/")
          (sprintV noFloat (Scalar.str "us-east1")) none ::
          List.filterMap (callAt noFloat "dev" "") []) :=
  ⟨fun _ _ _ _ => rfl, by decide, by decide, by decide,
   (non_core_path_preserved noFloat (okStore "") "dev").2.1 (fun _ _ _ _ => rfl)
     [("compute", Value.map [("region", Value.scalar (Scalar.str "us-east1"))])] [] [] []
     "compute" ["region"] (Scalar.str "us-east1") (by decide) (by decide) (by decide) rfl⟩


/-! ## The traversal with an arbitrary store -/

mutual
theorem applyPropertiesRecursive_outcome (formatFloat : Nat → String) (gcloudCmd : Command)
    (configName : String) :
    ∀ (value : Value) (path : String) (h : List Event),
      SetOutcome configName h
        (applyPropertiesRecursive formatFloat gcloudCmd configName path value h)
  | .scalar v, path, h => by
    rw [applyPropertiesRecursive]
    by_cases hp : path = ""
    · rw [if_neg (by simpa using hp)]
      exact ⟨[], by simp, Or.inl (by simp)⟩
    · rw [if_pos hp]
      dsimp only
      cases gcloudCmd.SetConfigValue h configName (trimPrefixOf path "core/")
          (sprintV formatFloat v) with
      | none =>
        exact ⟨[Event.setValue configName (trimPrefixOf path "core/") (sprintV formatFloat v)
          none], by simp, Or.inl rfl⟩
      | some e =>
        exact ⟨[], by simp, Or.inr ⟨trimPrefixOf path "core/", sprintV formatFloat v, e,
          by simp⟩⟩
  | .other, path, h => by
    rw [applyPropertiesRecursive]
    exact ⟨[], by simp, Or.inl (by simp)⟩
  | .map entries, path, h => by
    rw [applyPropertiesRecursive]
    exact rangeProperties_outcome formatFloat gcloudCmd configName entries path h
theorem rangeProperties_outcome (formatFloat : Nat → String) (gcloudCmd : Command)
    (configName : String) :
    ∀ (entries : List (String × Value)) (path : String) (h : List Event),
      SetOutcome configName h
        (rangeProperties formatFloat gcloudCmd configName path entries h)
  | [], path, h => by
    rw [rangeProperties]
    exact ⟨[], by simp, Or.inl (by simp)⟩
  | (key, v) :: rest, path, h => by
    rw [rangeProperties]
    obtain ⟨evs, hevs, hr | ⟨p, w, e, hr⟩⟩ :=
      applyPropertiesRecursive_outcome formatFloat gcloudCmd configName v
        (if path ≠ "" then path ++ "/" ++ key else key) h
    · rw [hr]
      dsimp only
      obtain ⟨evs2, hevs2, hr2 | ⟨p, w, e, hr2⟩⟩ :=
        rangeProperties_outcome formatFloat gcloudCmd configName rest path (h ++ evs)
      · refine ⟨evs ++ evs2, ?_, Or.inl (by rw [hr2, List.append_assoc])⟩
        intro ev hev
        rcases List.mem_append.1 hev with h1 | h1
        · exact hevs ev h1
        · exact hevs2 ev h1
      · refine ⟨evs ++ evs2, ?_, Or.inr ⟨p, w, e, by rw [hr2]; simp⟩⟩
        intro ev hev
        rcases List.mem_append.1 hev with h1 | h1
        · exact hevs ev h1
        · exact hevs2 ev h1
    · rw [hr]
      exact ⟨evs, hevs, Or.inr ⟨p, w, e, rfl⟩⟩
end

theorem applyProperties_outcome (formatFloat : Nat → String) (gcloudCmd : Command)
    (configName : String) (properties : List (String × Value)) (h : List Event) :
    SetOutcome configName h
      (applyProperties formatFloat gcloudCmd configName properties h) :=
  applyPropertiesRecursive_outcome formatFloat gcloudCmd configName _ _ h

/-- The position of a failed `SetConfigValue` call in a list whose other members are not
failed set calls. -/
theorem failed_set_last (good : List Event)
    (hg : ∀ ev ∈ good, ev.isFailedSet = false) (x : Event) (hx : x.isFailedSet = true) :
    ∀ (pre post : List Event),
      (good ≠ pre ++ x :: post) ∧
      (∀ y, good ++ [y] = pre ++ x :: post → post = [] ∧ y = x ∧ pre = good) := by
  induction good with
  | nil =>
    intro pre post
    refine ⟨by simp, ?_⟩
    intro y hy
    cases pre with
    | nil => simp at hy; simp [hy.1, hy.2]
    | cons q pre => simp at hy
  | cons g gs ih =>
    intro pre post
    have hgs : ∀ ev ∈ gs, ev.isFailedSet = false := fun ev hev =>
      hg ev (List.mem_cons_of_mem _ hev)
    have hgx : g ≠ x := by
      intro h
      have := hg g (List.mem_cons_self _ _)
      rw [h, hx] at this
      exact Bool.noConfusion this
    cases pre with
    | nil =>
      refine ⟨?_, ?_⟩
      · intro h; simp at h; exact hgx h.1
      · intro y h; simp at h; exact absurd h.1 hgx
    | cons q pre =>
      refine ⟨?_, ?_⟩
      · intro h
        simp at h
        exact (ih hgs pre post).1 h.2
      · intro y h
        simp at h
        obtain ⟨h1, h2, h3⟩ := (ih hgs pre post).2 y h.2
        exact ⟨h1, h2, by rw [h.1, h3]⟩


/-- The calls of `importConfiguration`: the describe call, then the activate or create call
chosen by the existence test, then the set calls of the traversal. -/
theorem importConfiguration_shape (formatFloat : Nat → String) (gcloudCmd : Command)
    (config : Configuration) (h : List Event) (out : String) (derr : Option String)
    (hd : gcloudCmd.DescribeConfiguration h config.Name = (out, derr)) :
    ∃ (ferr : Option String) (evs : List Event),
      (∀ ev ∈ evs, ∃ p v, ev = Event.setValue config.Name p v none) ∧
      ((∃ e, ferr = some e ∧
          importConfiguration formatFloat gcloudCmd config h =
            (some ((if out ≠ "" ∧ derr = none then "failed to activate configuration: "
                else "failed to create configuration: ") ++ e),
              h ++ [Event.describe config.Name out derr,
                if out ≠ "" ∧ derr = none then Event.activate config.Name ferr
                else Event.create config.Name ferr])) ∨
        (ferr = none ∧
          importConfiguration formatFloat gcloudCmd config h =
            (none, h ++ [Event.describe config.Name out derr,
                if out ≠ "" ∧ derr = none then Event.activate config.Name ferr
                else Event.create config.Name ferr] ++ evs)) ∨
        (ferr = none ∧ ∃ p v e,
          importConfiguration formatFloat gcloudCmd config h =
            (some ("failed to apply properties: " ++ ("failed to set " ++ p ++ ": " ++ e)),
              h ++ [Event.describe config.Name out derr,
                if out ≠ "" ∧ derr = none then Event.activate config.Name ferr
                else Event.create config.Name ferr] ++ evs ++
                [Event.setValue config.Name p v (some e)]))) := by
  rw [importConfiguration, hd]
  dsimp only
  by_cases hex : out ≠ "" ∧ derr = none
  · simp only [if_pos hex]
    cases hact : gcloudCmd.ActivateConfiguration
        (h ++ [Event.describe config.Name out derr]) config.Name with
    | some e => exact ⟨some e, [], by simp, Or.inl ⟨e, rfl, by simp⟩⟩
    | none =>
      dsimp only
      obtain ⟨evs, hevs, hr | ⟨p, w, e, hr⟩⟩ :=
        applyProperties_outcome formatFloat gcloudCmd config.Name config.Properties
          (h ++ [Event.describe config.Name out derr] ++ [Event.activate config.Name none])
      · rw [hr]
        exact ⟨none, evs, hevs, Or.inr (Or.inl ⟨rfl, by simp⟩)⟩
      · rw [hr]
        exact ⟨none, evs, hevs, Or.inr (Or.inr ⟨rfl, p, w, e, by simp⟩)⟩
  · simp only [if_neg hex]
    cases hact : gcloudCmd.CreateConfiguration
        (h ++ [Event.describe config.Name out derr]) config.Name with
    | some e => exact ⟨some e, [], by simp, Or.inl ⟨e, rfl, by simp⟩⟩
    | none =>
      dsimp only
      obtain ⟨evs, hevs, hr | ⟨p, w, e, hr⟩⟩ :=
        applyProperties_outcome formatFloat gcloudCmd config.Name config.Properties
          (h ++ [Event.describe config.Name out derr] ++ [Event.create config.Name none])
      · rw [hr]
        exact ⟨none, evs, hevs, Or.inr (Or.inl ⟨rfl, by simp⟩)⟩
      · rw [hr]
        exact ⟨none, evs, hevs, Or.inr (Or.inr ⟨rfl, p, w, e, by simp⟩)⟩


theorem importConfiguration_calls (formatFloat : Nat → String) (gcloudCmd : Command)
    (config : Configuration) (h : List Event) (out : String) (derr : Option String)
    (hd : gcloudCmd.DescribeConfiguration h config.Name = (out, derr)) :
    ∃ (ferr : Option String) (sets : List Event),
      (∀ ev ∈ sets, ∃ p v e, ev = Event.setValue config.Name p v e) ∧
      (importConfiguration formatFloat gcloudCmd config h).2 =
        h ++ Event.describe config.Name out derr ::
          (if out ≠ "" ∧ derr = none then Event.activate config.Name ferr
            else Event.create config.Name ferr) :: sets ∧
      ((importConfiguration formatFloat gcloudCmd config h).1 = none ∨
        (∃ e, ferr = some e ∧
          (importConfiguration formatFloat gcloudCmd config h).1 =
            some ((if out ≠ "" ∧ derr = none then "failed to activate configuration: "
              else "failed to create configuration: ") ++ e)) ∨
        (∃ p v e, Event.setValue config.Name p v (some e) ∈ sets ∧
          (importConfiguration formatFloat gcloudCmd config h).1 =
            some ("failed to apply properties: " ++ ("failed to set " ++ p ++ ": " ++ e)))) := by
  obtain ⟨ferr, evs, hevs, ⟨e, hf, hr⟩ | ⟨hf, hr⟩ | ⟨hf, p, w, e, hr⟩⟩ :=
    importConfiguration_shape formatFloat gcloudCmd config h out derr hd
  · exact ⟨ferr, [], by simp, by rw [hr], Or.inr (Or.inl ⟨e, hf, by rw [hr]⟩)⟩
  · refine ⟨ferr, evs, ?_, by rw [hr]; simp, Or.inl (by rw [hr])⟩
    intro ev hev
    obtain ⟨p, w, rfl⟩ := hevs ev hev
    exact ⟨p, w, none, rfl⟩
  · refine ⟨ferr, evs ++ [Event.setValue config.Name p w (some e)], ?_, by rw [hr]; simp,
      Or.inr (Or.inr ⟨p, w, e, by simp, by rw [hr]⟩)⟩
    intro ev hev
    rcases List.mem_append.1 hev with h1 | h1
    · obtain ⟨p, w, rfl⟩ := hevs ev h1
      exact ⟨p, w, none, rfl⟩
    · rw [List.mem_singleton] at h1
      exact ⟨p, w, some e, h1⟩

/-! ## C4: reconciliation branch selection -/

/-- C4: for every configuration name and every store, `importConfiguration` first calls
`DescribeConfiguration(name)`; among the calls that follow there is an
`ActivateConfiguration(name)` and no `CreateConfiguration` exactly when the describe call
returned no error and a non-empty string, and a `CreateConfiguration(name)` and no
`ActivateConfiguration` exactly when it did not. When the describe call returned an error,
what `importConfiguration` returns is no error, or the wrapped error of the create call, or
the wrapped error of a set call: never the describe error. -/
theorem reconciliation_branch_selection (formatFloat : Nat → String) (gcloudCmd : Command)
    (config : Configuration) (h : List Event) :
    ∃ rest : List Event,
      (importConfiguration formatFloat gcloudCmd config h).2 =
        h ++ Event.describe config.Name (gcloudCmd.DescribeConfiguration h config.Name).1
          (gcloudCmd.DescribeConfiguration h config.Name).2 :: rest ∧
      (((∃ err, Event.activate config.Name err ∈ rest) ∧
          (∀ name err, Event.create name err ∉ rest)) ↔
        ((gcloudCmd.DescribeConfiguration h config.Name).2 = none ∧
          (gcloudCmd.DescribeConfiguration h config.Name).1 ≠ "")) ∧
      (((∃ err, Event.create config.Name err ∈ rest) ∧
          (∀ name err, Event.activate name err ∉ rest)) ↔
        ¬ ((gcloudCmd.DescribeConfiguration h config.Name).2 = none ∧
          (gcloudCmd.DescribeConfiguration h config.Name).1 ≠ "")) ∧
      (∀ de, (gcloudCmd.DescribeConfiguration h config.Name).2 = some de →
        ((importConfiguration formatFloat gcloudCmd config h).1 = none ∨
          (∃ ce, Event.create config.Name (some ce) ∈ rest ∧
            (importConfiguration formatFloat gcloudCmd config h).1 =
              some ("failed to create configuration: " ++ ce)) ∨
          (∃ p v se, Event.setValue config.Name p v (some se) ∈ rest ∧
            (importConfiguration formatFloat gcloudCmd config h).1 =
              some ("failed to apply properties: " ++
                ("failed to set " ++ p ++ ": " ++ se))))) := by
  obtain ⟨ferr, sets, hsets, htr, hres⟩ :=
    importConfiguration_calls formatFloat gcloudCmd config h
      (gcloudCmd.DescribeConfiguration h config.Name).1
      (gcloudCmd.DescribeConfiguration h config.Name).2 rfl
  have hnc : ∀ name err, Event.create name err ∉ sets := by
    intro name err hm
    obtain ⟨p, v, e, he⟩ := hsets _ hm
    exact Event.noConfusion he
  have hna : ∀ name err, Event.activate name err ∉ sets := by
    intro name err hm
    obtain ⟨p, v, e, he⟩ := hsets _ hm
    exact Event.noConfusion he
  by_cases hex : (gcloudCmd.DescribeConfiguration h config.Name).1 ≠ "" ∧
      (gcloudCmd.DescribeConfiguration h config.Name).2 = none
  · rw [if_pos hex] at htr
    refine ⟨_, htr, ?_, ?_, ?_⟩
    · constructor
      · intro _; exact ⟨hex.2, hex.1⟩
      · intro _
        refine ⟨⟨ferr, List.mem_cons_self _ _⟩, ?_⟩
        intro name err hm
        rcases List.mem_cons.1 hm with h1 | h1
        · exact Event.noConfusion h1
        · exact hnc name err h1
    · constructor
      · rintro ⟨_, hno⟩
        exact absurd (List.mem_cons_self _ _) (hno config.Name ferr)
      · intro hn; exact absurd ⟨hex.2, hex.1⟩ hn
    · intro de hde
      rw [hex.2] at hde
      exact Option.noConfusion hde
  · rw [if_neg hex] at htr
    rw [if_neg hex] at hres
    refine ⟨_, htr, ?_, ?_, ?_⟩
    · constructor
      · rintro ⟨_, hno⟩
        exact absurd (List.mem_cons_self _ _) (hno config.Name ferr)
      · intro hn; exact absurd ⟨hn.2, hn.1⟩ hex
    · constructor
      · intro _ hn; exact hex ⟨hn.2, hn.1⟩
      · intro _
        refine ⟨⟨ferr, List.mem_cons_self _ _⟩, ?_⟩
        intro name err hm
        rcases List.mem_cons.1 hm with h1 | h1
        · exact Event.noConfusion h1
        · exact hna name err h1
    · intro de _
      rcases hres with h0 | ⟨e, hf, h1⟩ | ⟨p, v, e, hm, h1⟩
      · exact Or.inl h0
      · refine Or.inr (Or.inl ⟨e, ?_, h1⟩)
        rw [hf]
        exact List.mem_cons_self _ _
      · exact Or.inr (Or.inr ⟨p, v, e, List.mem_cons_of_mem _ hm, h1⟩)


/-- C4 at a store whose describe call fails with `not found`: the configuration `x` is
created, not activated, and the describe error is not returned. -/
theorem reconciliation_branch_selection_witness :
    ((failNthSetStore 5).DescribeConfiguration [] "x").2 = some "not found" ∧
    ∃ rest : List Event,
      (importConfiguration noFloat (failNthSetStore 5) (Configuration.mk "x" false []) []).2 =
        [] ++ Event.describe "x" "" (some "not found") :: rest ∧
      ((importConfiguration noFloat (failNthSetStore 5) (Configuration.mk "x" false []) []).1 =
          none ∨
        (∃ ce, Event.create "x" (some ce) ∈ rest ∧
          (importConfiguration noFloat (failNthSetStore 5) (Configuration.mk "x" false [])
            []).1 = some ("failed to create configuration: " ++ ce)) ∨
        (∃ p v se, Event.setValue "x" p v (some se) ∈ rest ∧
          (importConfiguration noFloat (failNthSetStore 5) (Configuration.mk "x" false [])
            []).1 = some ("failed to apply properties: " ++
              ("failed to set " ++ p ++ ": " ++ se)))) := by
  refine ⟨rfl, ?_⟩
  obtain ⟨rest, h1, _, _, h4⟩ :=
    reconciliation_branch_selection noFloat (failNthSetStore 5) (Configuration.mk "x" false [])
      []
  exact ⟨rest, h1, h4 "not found" rfl⟩

/-! ## C5: fail-fast on the first bad assignment -/

/-- C5: for every property mapping and every store, if a `SetConfigValue` call made by
`importConfiguration` returned an error, that call is the last call `importConfiguration`
makes (no further set call follows), `importConfiguration` returns an error, and the
message of that error contains the path passed to the failed call. -/
theorem fail_fast_on_first_bad_assignment (formatFloat : Nat → String) (gcloudCmd : Command)
    (config : Configuration) (h pre post : List Event) (c p v e : String)
    (hfail : (importConfiguration formatFloat gcloudCmd config h).2 =
      h ++ pre ++ Event.setValue c p v (some e) :: post) :
    post = [] ∧
    (importConfiguration formatFloat gcloudCmd config h).1 =
      some ("failed to apply properties: failed to set " ++ p ++ ": " ++ e) ∧
    ∃ a b, (importConfiguration formatFloat gcloudCmd config h).1 = some (a ++ p ++ b) := by
  have hx : (Event.setValue c p v (some e)).isFailedSet = true := rfl
  have main : post = [] ∧ (importConfiguration formatFloat gcloudCmd config h).1 =
      some ("failed to apply properties: " ++ ("failed to set " ++ p ++ ": " ++ e)) := by
    obtain ⟨ferr, evs, hevs, ⟨e1, hf, hr⟩ | ⟨hf, hr⟩ | ⟨hf, p1, w1, e1, hr⟩⟩ :=
      importConfiguration_shape formatFloat gcloudCmd config h
        (gcloudCmd.DescribeConfiguration h config.Name).1
        (gcloudCmd.DescribeConfiguration h config.Name).2 rfl
    · rw [hr, List.append_assoc] at hfail
      have h2 := List.append_cancel_left hfail
      refine absurd h2 ((failed_set_last _ ?_ _ hx pre post).1)
      intro ev hev
      simp only [List.mem_cons, List.mem_singleton, List.not_mem_nil, or_false] at hev
      rcases hev with rfl | rfl
      · rfl
      · split <;> rfl
    · rw [hr, List.append_assoc, List.append_assoc] at hfail
      have h2 := List.append_cancel_left hfail
      refine absurd h2 ((failed_set_last _ ?_ _ hx pre post).1)
      intro ev hev
      rcases List.mem_append.1 hev with h1 | h1
      · simp only [List.mem_cons, List.mem_singleton, List.not_mem_nil, or_false] at h1
        rcases h1 with rfl | rfl
        · rfl
        · split <;> rfl
      · obtain ⟨q, w, rfl⟩ := hevs ev h1
        rfl
    · rw [hr, List.append_assoc, List.append_assoc, List.append_assoc, ← List.append_assoc _ evs]
        at hfail
      have h2 := List.append_cancel_left hfail
      have hgood : ∀ ev ∈ [Event.describe config.Name
            (gcloudCmd.DescribeConfiguration h config.Name).1
            (gcloudCmd.DescribeConfiguration h config.Name).2,
          if (gcloudCmd.DescribeConfiguration h config.Name).1 ≠ "" ∧
              (gcloudCmd.DescribeConfiguration h config.Name).2 = none
            then Event.activate config.Name ferr
            else Event.create config.Name ferr] ++ evs, ev.isFailedSet = false := by
        intro ev hev
        rcases List.mem_append.1 hev with h1 | h1
        · simp only [List.mem_cons, List.mem_singleton, List.not_mem_nil, or_false] at h1
          rcases h1 with rfl | rfl
          · rfl
          · split <;> rfl
        · obtain ⟨q, w, rfl⟩ := hevs ev h1
          rfl
      obtain ⟨hpost, hy, _⟩ := (failed_set_last _ hgood _ hx pre post).2 _ h2
      injection hy with _ hp hv he
      injection he with he
      rw [hr]
      exact ⟨hpost, by rw [hp, he]⟩
  have hlit : "failed to apply properties: " ++ "failed to set " =
      "failed to apply properties: failed to set " := by decide
  have hmsg : "failed to apply properties: " ++ ("failed to set " ++ p ++ ": " ++ e) =
      "failed to apply properties: failed to set " ++ p ++ ": " ++ e := by
    rw [← hlit]
    simp only [String.append_assoc]
  refine ⟨main.1, ?_, ?_⟩
  · rw [main.2, hmsg]
  · refine ⟨"failed to apply properties: failed to set ", ": " ++ e, ?_⟩
    rw [main.2, hmsg, String.append_assoc]


/-- C5 at a store that fails the second set call, for a configuration with the three
properties `a`, `b`, `c`: the call for `b` is the last one, the call for `c` is never made,
and the error names `b`. -/
theorem fail_fast_on_first_bad_assignment_witness :
    (importConfiguration noFloat (failNthSetStore 1) (threeProperties "dev") []).2 =
      [] ++ [Event.describe "dev" "" (some "not found"), Event.create "dev" none,
        Event.setValue "dev" "a" "1" none] ++
        Event.setValue "dev" "b" "2" (some "exit status 1") :: [] ∧
    (importConfiguration noFloat (failNthSetStore 1) (threeProperties "dev") []).1 =
      some ("failed to apply properties: failed to set " ++ "b" ++ ": " ++ "exit status 1") :=
  ⟨by decide,
   (fail_fast_on_first_bad_assignment noFloat (failNthSetStore 1) (threeProperties "dev") []
      [Event.describe "dev" "" (some "not found"), Event.create "dev" none,
        Event.setValue "dev" "a" "1" none] [] "dev" "b" "2" "exit status 1" (by decide)).2.1⟩

/-! ## C6: a failure inside a batch -/

theorem importConfigurations_append (formatFloat : Nat → String) (gcloudCmd : Command)
    (after : List Configuration) :
    ∀ (before : List Configuration) (h : List Event),
      (importConfigurations formatFloat gcloudCmd before h).1 = none →
      importConfigurations formatFloat gcloudCmd (before ++ after) h =
        importConfigurations formatFloat gcloudCmd after
          (importConfigurations formatFloat gcloudCmd before h).2 := by
  intro before
  induction before with
  | nil => intro h _; rfl
  | cons c rest ih =>
    intro h hnone
    rw [List.cons_append, importConfigurations]
    rw [importConfigurations] at hnone ⊢
    cases hr : importConfiguration formatFloat gcloudCmd c h with
    | mk r h1 =>
      rw [hr] at hnone
      cases r with
      | some e => exact Option.noConfusion hnone
      | none => exact ih h1 hnone

/-- C6, as stated, fails: with a store that cannot create `p1`, `runImport` on the batch
`p1, p2` returns the error of `p1` after the describe and create calls for `p1` and makes
no call for `p2`, although reconciling `p2` on its own succeeds. -/
theorem batch_aborts_after_failed_profile :
    runImport noFloat (stdinSource "" [.ok (bare "p1"), .ok (bare "p2")])
        (failCreateStore "p1") [] [] =
      (some "failed to import configuration 'p1': failed to create configuration: exit status 1",
        [Event.describe "p1" "" (some "not found"),
          Event.create "p1" (some "exit status 1")]) ∧
    importConfiguration noFloat (failCreateStore "p1") (bare "p2") [] =
      (none, [Event.describe "p2" "" (some "not found"), Event.create "p2" none]) := by
  constructor <;> decide

/-- C6, amended: for every batch decoded by `runImport`, if the profiles before `config`
are reconciled without error and reconciling `config` fails with the error `e`, leaving the
history `h1`, then `runImport` stops there: it returns
`failed to import configuration '<name>': e` and its history is `h1`, so no call is made
for any profile after `config`. -/
theorem batch_stops_at_first_failure (formatFloat : Nat → String) (src : ImportSource)
    (gcloudCmd : Command) (args : List String) (h h1 : List Event) (d e : String)
    (before after : List Configuration) (config : Configuration)
    (hread : readInput src args = .ok d)
    (hdec : decodeConfigs (src.Decode d) [] = .ok (before ++ config :: after))
    (hbefore : (importConfigurations formatFloat gcloudCmd before h).1 = none)
    (hfail : importConfiguration formatFloat gcloudCmd config
      (importConfigurations formatFloat gcloudCmd before h).2 = (some e, h1)) :
    runImport formatFloat src gcloudCmd args h =
      (some ("failed to import configuration '" ++ config.Name ++ "': " ++ e), h1) := by
  rw [runImport, hread]
  dsimp only
  rw [hdec]
  dsimp only
  rw [importConfigurations_append formatFloat gcloudCmd _ before h hbefore, importConfigurations,
    hfail]

/-- The amended C6 for the batch `p0, p1, p2` at a store that cannot create `p1`: `p0` is
reconciled, `p1` fails, nothing is done for `p2`. -/
theorem batch_stops_at_first_failure_witness :
    readInput (stdinSource "" [.ok (bare "p0"), .ok (bare "p1"), .ok (bare "p2")]) [] = .ok "" ∧
    (importConfigurations noFloat (failCreateStore "p1") [bare "p0"] []).1 = none ∧
    runImport noFloat (stdinSource "" [.ok (bare "p0"), .ok (bare "p1"), .ok (bare "p2")])
        (failCreateStore "p1") [] [] =
      (some ("failed to import configuration '" ++ (bare "p1").Name ++ "': " ++
          "failed to create configuration: exit status 1"),
        [Event.describe "p0" "" (some "not found"), Event.create "p0" none,
          Event.describe "p1" "" (some "not found"),
          Event.create "p1" (some "exit status 1")]) :=
  ⟨rfl, by decide,
   batch_stops_at_first_failure noFloat
     (stdinSource "" [.ok (bare "p0"), .ok (bare "p1"), .ok (bare "p2")]) (failCreateStore "p1")
     [] [] _ "" _ [bare "p0"] [bare "p2"] (bare "p1") rfl rfl (by decide) (by decide)⟩

/-! ## C7: records without a name and blank documents -/

theorem decodeConfigs_all_parse (records : List Configuration) :
    ∀ configs : List Configuration,
      decodeConfigs (records.map Except.ok) configs =
        .ok (configs ++ records.filter Configuration.named) := by
  induction records with
  | nil => intro configs; simp [decodeConfigs]
  | cons c rest ih =>
    intro configs
    rw [List.map_cons, decodeConfigs]
    by_cases hc : c.Name = ""
    · rw [if_pos hc, ih, List.filter_cons_of_neg (by simp [Configuration.named, hc])]
    · rw [if_neg hc, ih, List.filter_cons_of_pos (by simp [Configuration.named, hc])]
      simp

/-- The decode loop of `runImport` on decoder results that all parse: the list handed to
the reconciliation loop is the list of the records returned before `io.EOF` that have a
non-empty name, in the order returned; a record with an empty name causes no error and no
store call. What the stream holds after the point where the decoder reports `io.EOF` is
never decoded. -/
theorem decode_loop_keeps_named_records (formatFloat : Nat → String) (src : ImportSource)
    (gcloudCmd : Command) (args : List String) (h : List Event) (d : String)
    (records : List Configuration)
    (hread : readInput src args = .ok d)
    (hparse : src.Decode d = records.map Except.ok) :
    decodeConfigs (src.Decode d) [] = .ok (records.filter Configuration.named) ∧
    runImport formatFloat src gcloudCmd args h =
      importConfigurations formatFloat gcloudCmd (records.filter Configuration.named) h ∧
    (records.filter Configuration.named = [] →
      runImport formatFloat src gcloudCmd args h = (none, h)) := by
  have hdec : decodeConfigs (src.Decode d) [] = .ok (records.filter Configuration.named) := by
    rw [hparse, decodeConfigs_all_parse]
    rfl
  have hrun : runImport formatFloat src gcloudCmd args h =
      importConfigurations formatFloat gcloudCmd (records.filter Configuration.named) h := by
    rw [runImport, hread]
    dsimp only
    rw [hdec]
  refine ⟨hdec, hrun, ?_⟩
  intro hnil
  rw [hrun, hnil, importConfigurations]

/-- C7 evaluated at the stream `name: a`, `---`, blank, `---`, `name: b` on standard input,
for which the YAML decoder returns the record `a` and then reports `io.EOF` at the blank
document: the decode loop breaks there (import.go 68-69), so `runImport` hands the single
profile `a` to the reconciliation loop, describes and activates `a`, returns no error and
makes no call for `b`. -/
theorem record_after_blank_document_is_lost :
    readInput (stdinSource "name: a\n---\n\n---\nname: b\n" [.ok (bare "a")]) [] =
      .ok "name: a\n---\n\n---\nname: b\n" ∧
    (decodeConfigs ((stdinSource "name: a\n---\n\n---\nname: b\n" [.ok (bare "a")]).Decode
        "name: a\n---\n\n---\nname: b\n") []).toOption.map (List.map Configuration.Name) =
      some ["a"] ∧
    runImport noFloat (stdinSource "name: a\n---\n\n---\nname: b\n" [.ok (bare "a")])
        (okStore "name: a") [] [] =
      (none, [Event.describe "a" "name: a" none, Event.activate "a" none]) :=
  ⟨rfl, by decide, by decide⟩

/-! ## C8: the stream-joining rule -/

theorem intersperse_cons_eq (a : String) (l : List String) :
    List.intersperse "---" (a :: l) = a :: withBoundaries l := by
  induction l generalizing a with
  | nil => rfl
  | cons b rest ih => rw [List.intersperse_cons₂, ih, withBoundaries]

theorem withBoundaries_length (l : List String) :
    (withBoundaries l).length = 2 * l.length := by
  induction l with
  | nil => rfl
  | cons b rest ih => simp only [withBoundaries, List.length_cons, ih]; omega

theorem withBoundaries_get (l : List String) :
    (∀ i, (withBoundaries l)[2 * i + 1]? = l[i]?) ∧
    (∀ i, i < l.length → (withBoundaries l)[2 * i]? = some "---") := by
  induction l with
  | nil => simp [withBoundaries]
  | cons b rest ih =>
    constructor
    · intro i
      cases i with
      | zero => simp [withBoundaries]
      | succ j =>
        have := ih.1 j
        have e : 2 * (j + 1) + 1 = (2 * j + 1) + 1 + 1 := by omega
        rw [e]
        simpa [withBoundaries] using this
    · intro i hi
      cases i with
      | zero => simp [withBoundaries]
      | succ j =>
        have := ih.2 j (by simpa using hi)
        have e : 2 * (j + 1) = 2 * j + 1 + 1 := by omega
        rw [e]
        simpa [withBoundaries] using this

theorem exportLoop_ok (gcloudCmd : Command) :
    ∀ (configNames : List String) (i : Nat) (h : List Event) (out : List String),
      (∀ h1, ∀ name ∈ configNames, (gcloudCmd.DescribeConfiguration h1 name).2 = none) →
      ∃ records : List String, records.length = configNames.length ∧
        exportLoop gcloudCmd i configNames h out =
          (none, h ++ List.zipWith (fun name r => Event.describe name r none) configNames records,
            out ++ (if i > 0 then withBoundaries records
              else List.intersperse "---" records)) := by
  intro configNames
  induction configNames with
  | nil =>
    intro i h out _
    refine ⟨[], rfl, ?_⟩
    simp [exportLoop, withBoundaries]
  | cons name rest ih =>
    intro i h out hok
    have hd := hok h name (List.mem_cons_self _ _)
    obtain ⟨recs, hlen, hrec⟩ := ih (i + 1)
      (h ++ [Event.describe name (gcloudCmd.DescribeConfiguration h name).1 none])
      ((if i > 0 then out ++ ["---"] else out) ++ [(gcloudCmd.DescribeConfiguration h name).1])
      (fun h1 n hn => hok h1 n (List.mem_cons_of_mem _ hn))
    refine ⟨(gcloudCmd.DescribeConfiguration h name).1 :: recs, by simp [hlen], ?_⟩
    rw [exportLoop, hd]
    rw [hrec, if_pos (Nat.succ_pos i)]
    by_cases hi : i > 0
    · simp [hi, withBoundaries]
    · simp [hi, intersperse_cons_eq]

/-- C8: for every list of `N` names for which every `DescribeConfiguration` call succeeds,
`exportConfigurations` returns no error, describes the names in input order and writes the
described records in that order with the line `---` between consecutive records:
`2N - 1` lines for `N >= 1`, the record `i` at position `2i` and `---` at every position
`2i + 1` that has a record after it, so `N - 1` boundary lines, none before the first
record, none after the last, and none at all for `N = 1`. -/
theorem export_writes_boundary_between_records (gcloudCmd : Command)
    (configNames : List String) (h : List Event) (out : List String)
    (hok : ∀ h1, ∀ name ∈ configNames, (gcloudCmd.DescribeConfiguration h1 name).2 = none) :
    ∃ records : List String, records.length = configNames.length ∧
      exportConfigurations gcloudCmd configNames h out =
        (none, h ++ List.zipWith (fun name r => Event.describe name r none) configNames records,
          out ++ List.intersperse "---" records) ∧
      (List.intersperse "---" records).length = configNames.length + (configNames.length - 1) ∧
      (∀ i, (List.intersperse "---" records)[2 * i]? = records[i]?) ∧
      (∀ i, i + 1 < configNames.length →
        (List.intersperse "---" records)[2 * i + 1]? = some "---") ∧
      (configNames.length = 1 → List.intersperse "---" records = records) := by
  obtain ⟨records, hlen, hrun⟩ := exportLoop_ok gcloudCmd configNames 0 h out hok
  refine ⟨records, hlen, ?_, ?_, ?_, ?_, ?_⟩
  · rw [exportConfigurations, hrun]
    simp
  · rw [← hlen]
    cases records with
    | nil => rfl
    | cons a l =>
      rw [intersperse_cons_eq, List.length_cons, withBoundaries_length, List.length_cons]
      omega
  · intro i
    cases records with
    | nil => simp
    | cons a l =>
      rw [intersperse_cons_eq]
      cases i with
      | zero => simp
      | succ j =>
        have e : 2 * (j + 1) = 2 * j + 1 + 1 := by omega
        rw [e, List.getElem?_cons_succ, List.getElem?_cons_succ]
        exact (withBoundaries_get l).1 j
  · intro i hi
    rw [← hlen] at hi
    cases records with
    | nil => simp at hi
    | cons a l =>
      rw [intersperse_cons_eq, List.getElem?_cons_succ]
      exact (withBoundaries_get l).2 i (by simpa using hi)
  · intro h1
    rw [← hlen] at h1
    cases records with
    | nil => rfl
    | cons a l =>
      cases l with
      | nil => rfl
      | cons b l2 => simp at h1

/-- C8 for the names `a`, `b`, `c` at a store that describes every name as `name: x`: three
records with two boundary lines between them. -/
theorem export_writes_boundary_between_records_witness :
    (∀ h1, ∀ name ∈ ["a", "b", "c"],
      ((okStore "name: x").DescribeConfiguration h1 name).2 = none) ∧
    exportConfigurations (okStore "name: x") ["a", "b", "c"] [] [] =
      (none, [Event.describe "a" "name: x" none, Event.describe "b" "name: x" none,
          Event.describe "c" "name: x" none],
        ["name: x", "---", "name: x", "---", "name: x"]) ∧
    ∃ records : List String, records.length = ["a", "b", "c"].length ∧
      exportConfigurations (okStore "name: x") ["a", "b", "c"] [] [] =
        (none, [] ++ List.zipWith (fun name r => Event.describe name r none) ["a", "b", "c"]
          records, [] ++ List.intersperse "---" records) := by
  refine ⟨fun _ _ _ => rfl, by decide, ?_⟩
  obtain ⟨records, h1, h2, _⟩ :=
    export_writes_boundary_between_records (okStore "name: x") ["a", "b", "c"] [] []
      (fun _ _ _ => rfl)
  exact ⟨records, h1, h2⟩


/-! ## C9: cancelling the picker -/

/-- Whenever the picker returns the empty selection without an error, `runSwitch` returns
the error of `extractConfigurationName` and the table listing is its only call. -/
theorem runSwitch_empty_selection (p : fzf.Process) (gcloudCmd : Command)
    (args : List String) (h : List Event)
    (hinst : fzf.IsInstalled p h = true)
    (htab : (gcloudCmd.GetConfigurationsTable h).2 = none)
    (hsel : fzf.Run p (h ++ [Event.getTable (gcloudCmd.GetConfigurationsTable h).1 none])
      (highlightActiveConfiguration (gcloudCmd.GetConfigurationsTable h).1)
      (some (fzf.Options.mk (match args with
        | a :: _ => a
        | [] => "") false [])) = ("", none)) :
    runSwitch p gcloudCmd args h =
      (some "invalid selection result",
        h ++ [Event.getTable (gcloudCmd.GetConfigurationsTable h).1 none]) := by
  have hx : extractConfigurationName "" = .error "invalid selection result" := rfl
  unfold runSwitch
  simp only [hinst, Bool.not_true, Bool.false_eq_true, if_false]
  rw [htab]
  dsimp only
  rw [hsel]
  dsimp only
  rw [hx]

/-- C9 evaluated where the user cancels the picker (`fzf` exits with status 130): `Run`
returns the empty selection and no error, `extractConfigurationName` rejects the empty
selection, and `runSwitch` returns the error `invalid selection result` after the table
listing, without an `ActivateConfiguration` call. -/
theorem cancelled_picker_is_reported_as_error :
    fzf.Run cancelledFzf [Event.getTable "* dev me proj\n- prod me other" none]
        (highlightActiveConfiguration "* dev me proj\n- prod me other")
        (some (fzf.Options.mk "" false [])) = ("", none) ∧
    extractConfigurationName "" = .error "invalid selection result" ∧
    runSwitch cancelledFzf (tableStore "* dev me proj\n- prod me other") [] [] =
      (some "invalid selection result",
        [Event.getTable "* dev me proj\n- prod me other" none]) :=
  ⟨by decide, rfl, by decide⟩

/-! ## C10: highlighting and the selected name -/

theorem splitNewline_single (l : List Char) (hl : '\n' ∉ l) : splitNewline l = [l] := by
  induction l with
  | nil => rfl
  | cons c cs ih =>
    have hc : c ≠ '\n' := fun h => hl (by rw [h]; exact List.mem_cons_self _ _)
    have hcs : '\n' ∉ cs := fun h => hl (List.mem_cons_of_mem _ h)
    rw [splitNewline, if_neg hc, ih hcs]

theorem fieldsFrom_append_nonspace (w : List Char) (hw : ∀ c ∈ w, isSpace c = false) :
    ∀ (cur t : List Char), fieldsFrom cur (w ++ t) = fieldsFrom (cur ++ w) t := by
  induction w with
  | nil => intro cur t; simp
  | cons c cs ih =>
    intro cur t
    have hc : isSpace c = false := hw c (List.mem_cons_self _ _)
    rw [List.cons_append, fieldsFrom]
    simp only [hc, Bool.false_eq_true, if_false]
    rw [ih (fun d hd => hw d (List.mem_cons_of_mem _ hd))]
    simp

theorem fieldsFrom_same_tail (t : List Char) :
    ∀ (cur1 cur2 : List Char), cur1 ≠ [] → cur2 ≠ [] →
      ∃ x tl, fieldsFrom cur1 t = (cur1 ++ x) :: tl ∧ fieldsFrom cur2 t = (cur2 ++ x) :: tl := by
  induction t with
  | nil =>
    intro cur1 cur2 h1 h2
    exact ⟨[], [], by simp [fieldsFrom, h1], by simp [fieldsFrom, h2]⟩
  | cons c cs ih =>
    intro cur1 cur2 h1 h2
    by_cases hc : isSpace c = true
    · exact ⟨[], fieldsFrom [] cs, by simp [fieldsFrom, hc, h1], by simp [fieldsFrom, hc, h2]⟩
    · obtain ⟨x, tl, e1, e2⟩ := ih (cur1 ++ [c]) (cur2 ++ [c]) (by simp) (by simp)
      refine ⟨c :: x, tl, ?_, ?_⟩
      · rw [fieldsFrom, if_neg hc, e1]; simp
      · rw [fieldsFrom, if_neg hc, e2]; simp

/-- C10: for every row without a newline, highlighted or not, starting with `*` or not,
`extractConfigurationName` gives the same result on the highlighted row as on the row
itself: the second whitespace-separated field of the row when the row has at least two
fields, and the error `invalid selection result` otherwise. -/
theorem highlight_keeps_selected_name (row : String) (hrow : '\n' ∉ row.data) :
    extractConfigurationName (highlightActiveConfiguration row) =
      extractConfigurationName row ∧
    (∀ f1 f2 rest, fields row = f1 :: f2 :: rest →
      extractConfigurationName row = .ok f2) ∧
    ((fields row).length < 2 →
      extractConfigurationName row = .error "invalid selection result") := by
  refine ⟨?_, ?_, ?_⟩
  · have hsplit : highlightActiveConfiguration row = highlightLine row := by
      rw [highlightActiveConfiguration, splitNewline_single _ hrow]
      rfl
    rw [hsplit, highlightLine]
    by_cases hp : hasPrefixOf row "*" = true
    · rw [if_pos hp]
      obtain ⟨l⟩ := row
      cases l with
      | nil => simp [hasPrefixOf, List.isPrefixOf] at hp
      | cons c t =>
        have hc : c = '*' := by
          have : '*' = c := by simpa [hasPrefixOf, List.isPrefixOf] using hp
          exact this.symm
        subst hc
        have hw : ∀ c ∈ ("\x1b[01;31m" ++ "*" ++ "\x1b[0m").data, isSpace c = false := by
          decide
        obtain ⟨x, tl, e1, e2⟩ := fieldsFrom_same_tail t
          (("\x1b[01;31m" ++ "*" ++ "\x1b[0m").data) ['*'] (by decide) (by decide)
        have hf1 : fields ("\x1b[01;31m" ++ "*" ++ "\x1b[0m" ++
            String.mk (List.drop 1 ('*' :: t))) =
            String.mk (("\x1b[01;31m" ++ "*" ++ "\x1b[0m").data ++ x) :: tl.map String.mk := by
          rw [fields, String.data_append]
          simp only [List.drop_succ_cons, List.drop_zero]
          rw [fieldsFrom_append_nonspace _ hw, List.nil_append, e1, List.map_cons]
        have hf2 : fields (String.mk ('*' :: t)) =
            String.mk (['*'] ++ x) :: tl.map String.mk := by
          have hstar : isSpace '*' = false := by decide
          rw [fields]
          simp only []
          rw [fieldsFrom]
          simp only [hstar, Bool.false_eq_true, if_false, List.nil_append]
          rw [e2, List.map_cons]
        rw [extractConfigurationName, extractConfigurationName, hf1, hf2]
        cases tl <;> rfl
    · rw [if_neg hp]
  · intro f1 f2 rest hf
    rw [extractConfigurationName, hf]
  · intro hlen
    rw [extractConfigurationName]
    cases hf : fields row with
    | nil => rfl
    | cons a l =>
      cases l with
      | nil => rfl
      | cons b l2 =>
        rw [hf] at hlen
        simp only [List.length_cons] at hlen
        omega

/-- C10 at the row `* dev me proj` of the active configuration: the name read from the
highlighted row is `dev`, as from the row itself. -/
theorem highlight_keeps_selected_name_witness :
    '\n' ∉ ("* dev me proj" : String).data ∧
    fields "* dev me proj" = ["*", "dev", "me", "proj"] ∧
    extractConfigurationName (highlightActiveConfiguration "* dev me proj") =
      extractConfigurationName "* dev me proj" ∧
    extractConfigurationName "* dev me proj" = .ok "dev" :=
  ⟨by decide, by decide,
   (highlight_keeps_selected_name "* dev me proj" (by decide)).1,
   (highlight_keeps_selected_name "* dev me proj" (by decide)).2.1 "*" "dev" ["me", "proj"]
     (by decide)⟩

end GConfig
